import Mathlib

/-!
Verification of the render-cron ingestion pipeline.

Shallow embedding of the TypeScript sources:
* `utils/duplicateTracker.ts` — the consecutive-duplicate early-stop tracker;
* `services/jobyAviationService.ts` — embedding client, per-URL processing,
  category orchestration (`processJobySpecificData`);
* `services/techcrunchService.ts` — per-article processing (best-effort embedding);
* `services/betaTechnologiesService.ts` — `storeInDatabase` (upsert on url);
* `index.ts` — `runService` / `runAllServices` orchestration.

Network and database effects are modelled by explicit outcome values fed to the
functions (a lookup either returns a row count or errors; an embedding attempt
either succeeds, is throttled, or fails), and the document store is modelled as
the list of inserted rows.
-/

namespace RenderCron

/-! ### Duplicate tracker (utils/duplicateTracker.ts) -/

/-- Outcome of the supabase existence query in `checkDuplicate` /
`recordExists`: either a row count (which supabase may return as null,
hence `Option Nat`), or a thrown error. -/
inductive LookupOutcome where
  | ok (count : Option Nat)
  | err (msg : String)
deriving DecidableEq

/-- State of `DuplicateTracker`: the consecutive-duplicate counter and the
configured threshold (`maxConsecutiveDuplicates`). -/
structure DuplicateTracker where
  consecutiveDuplicates : Nat
  maxConsecutiveDuplicates : Nat
deriving DecidableEq

/-- The constructor `new DuplicateTracker(maxConsecutiveDuplicates = 5)`:
counter starts at 0. -/
def mkTracker (maxConsecutiveDuplicates : Nat := 5) : DuplicateTracker :=
  { consecutiveDuplicates := 0, maxConsecutiveDuplicates := maxConsecutiveDuplicates }

/-- `checkDuplicate`: `(count || 0) > 0` on success, and `false` when the
query throws (the catch branch: "On error, assume it's not a duplicate"). -/
def checkDuplicate : LookupOutcome → Bool
  | .ok count => count.getD 0 > 0
  | .err _ => false

/-- Return value of `processCheck`. -/
structure CheckResult where
  isDuplicate : Bool
  shouldStop : Bool
deriving DecidableEq

/-- `DuplicateTracker.processCheck`: on a duplicate, increment the counter and
signal `shouldStop` when it reaches the threshold; on a non-duplicate, reset
the counter to 0 and never signal a stop. Returns the result together with
the updated tracker state. -/
def processCheck (t : DuplicateTracker) (o : LookupOutcome) :
    CheckResult × DuplicateTracker :=
  if checkDuplicate o then
    if t.consecutiveDuplicates + 1 ≥ t.maxConsecutiveDuplicates then
      (⟨true, true⟩, { t with consecutiveDuplicates := t.consecutiveDuplicates + 1 })
    else
      (⟨true, false⟩, { t with consecutiveDuplicates := t.consecutiveDuplicates + 1 })
  else
    (⟨false, false⟩, { t with consecutiveDuplicates := 0 })

/-- `DuplicateTracker.reset`. -/
def DuplicateTracker.reset (t : DuplicateTracker) : DuplicateTracker :=
  { t with consecutiveDuplicates := 0 }

/-- `DuplicateTracker.getConsecutiveCount`. -/
def DuplicateTracker.getConsecutiveCount (t : DuplicateTracker) : Nat :=
  t.consecutiveDuplicates

/-- `DuplicateTracker.shouldStop`. -/
def DuplicateTracker.shouldStop (t : DuplicateTracker) : Bool :=
  t.consecutiveDuplicates ≥ t.maxConsecutiveDuplicates

/-- Feeding a whole sequence of lookup outcomes through `processCheck`,
collecting the per-call results and the final tracker state. -/
def runChecks (t : DuplicateTracker) : List LookupOutcome → List CheckResult × DuplicateTracker
  | [] => ([], t)
  | o :: os =>
    let p := processCheck t o
    let q := runChecks p.2 os
    (p.1 :: q.1, q.2)

/-- Length of the maximal run of consecutive duplicate observations at the end
of a sequence of lookup outcomes. -/
def consecDupsAt (os : List LookupOutcome) : Nat :=
  (os.reverse.takeWhile checkDuplicate).length

theorem processCheck_max (t : DuplicateTracker) (o : LookupOutcome) :
    (processCheck t o).2.maxConsecutiveDuplicates = t.maxConsecutiveDuplicates := by
  unfold processCheck
  cases h : checkDuplicate o
  · rfl
  · rw [if_pos rfl]
    split <;> rfl

theorem processCheck_counter (t : DuplicateTracker) (o : LookupOutcome) :
    (processCheck t o).2.consecutiveDuplicates =
      (if checkDuplicate o then t.consecutiveDuplicates + 1 else 0) := by
  unfold processCheck
  cases h : checkDuplicate o
  · rfl
  · rw [if_pos rfl]
    split <;> rfl

theorem runChecks_append_state (t : DuplicateTracker) (xs ys : List LookupOutcome) :
    (runChecks t (xs ++ ys)).2 = (runChecks (runChecks t xs).2 ys).2 := by
  induction xs generalizing t with
  | nil => rfl
  | cons x xs ih => simpa [runChecks] using ih (processCheck t x).2

theorem consecDupsAt_append (os : List LookupOutcome) (o : LookupOutcome) :
    consecDupsAt (os ++ [o]) =
      (if checkDuplicate o then consecDupsAt os + 1 else 0) := by
  unfold consecDupsAt
  rw [List.reverse_append]
  cases h : checkDuplicate o <;> simp [List.takeWhile, h]

theorem runChecks_state_eq (N : Nat) (os : List LookupOutcome) :
    (runChecks (mkTracker N) os).2 = ⟨consecDupsAt os, N⟩ := by
  induction os using List.reverseRecOn with
  | nil => rfl
  | append_singleton os o ih =>
    rw [runChecks_append_state, ih, consecDupsAt_append]
    show (processCheck ⟨consecDupsAt os, N⟩ o).2 = _
    unfold processCheck
    cases h : checkDuplicate o
    · rfl
    · rw [if_pos rfl]
      split <;> rfl

theorem processCheck_stop_eq (t : DuplicateTracker) (o : LookupOutcome) :
    (processCheck t o).1.shouldStop =
      (checkDuplicate o && decide (t.consecutiveDuplicates + 1 ≥ t.maxConsecutiveDuplicates)) := by
  unfold processCheck
  cases h : checkDuplicate o
  · rfl
  · rw [if_pos rfl]
    simp only [Bool.true_and]
    split <;> simp_all

/-- C1: For every sequence of duplicate-check results fed to a
`DuplicateTracker` with threshold `N` (default 5), `processCheck` signals
`shouldStop = true` exactly when the trailing run of consecutive duplicate
observations has reached length `N` — hence on the `N`-th consecutive
duplicate and never earlier — and any single non-duplicate observation
resets the internal counter to 0 and yields `shouldStop = false` on that
call. -/
theorem c1_duplicate_threshold (N : Nat) (hN : 0 < N)
    (os : List LookupOutcome) (o : LookupOutcome) :
    ((processCheck (runChecks (mkTracker N) os).2 o).1.shouldStop = true ↔
      N ≤ consecDupsAt (os ++ [o]))
    ∧ (checkDuplicate o = false →
        (processCheck (runChecks (mkTracker N) os).2 o).1.shouldStop = false ∧
        (processCheck (runChecks (mkTracker N) os).2 o).2.consecutiveDuplicates = 0)
    ∧ (mkTracker).maxConsecutiveDuplicates = 5 := by
  rw [runChecks_state_eq]
  refine ⟨?_, fun h => ⟨?_, ?_⟩, rfl⟩
  · rw [processCheck_stop_eq, consecDupsAt_append]
    cases h : checkDuplicate o
    · rw [if_neg Bool.false_ne_true]
      simp only [Bool.false_and]
      constructor
      · intro hc
        exact absurd hc Bool.false_ne_true
      · intro hc
        exfalso
        omega
    · rw [if_pos rfl]
      simp only [Bool.true_and, decide_eq_true_eq]
  · rw [processCheck_stop_eq, h]; rfl
  · rw [processCheck_counter, h]; rfl

/-- Witness for C1 at threshold 5: the fifth consecutive duplicate triggers
the stop, and a fresh (non-duplicate) observation resets the counter. -/
theorem c1_duplicate_threshold_witness :
    (0 < 5)
    ∧ ((processCheck (runChecks (mkTracker 5)
          [.ok (some 1), .ok (some 1), .ok (some 1), .ok (some 1)]).2
          (.ok (some 1))).1.shouldStop = true ↔
        5 ≤ consecDupsAt ([.ok (some 1), .ok (some 1), .ok (some 1), .ok (some 1)] ++
          [.ok (some 1)]))
    ∧ (checkDuplicate (.ok (some 1)) = false →
        (processCheck (runChecks (mkTracker 5)
          [.ok (some 1), .ok (some 1), .ok (some 1), .ok (some 1)]).2
          (.ok (some 1))).1.shouldStop = false ∧
        (processCheck (runChecks (mkTracker 5)
          [.ok (some 1), .ok (some 1), .ok (some 1), .ok (some 1)]).2
          (.ok (some 1))).2.consecutiveDuplicates = 0)
    ∧ (mkTracker).maxConsecutiveDuplicates = 5 :=
  ⟨by decide,
   c1_duplicate_threshold 5 (by decide)
     [.ok (some 1), .ok (some 1), .ok (some 1), .ok (some 1)] (.ok (some 1))⟩

/-- C4: when the store existence check errors, `processCheck` does not
propagate the error: it returns `isDuplicate = false`, `shouldStop = false`,
and resets the consecutive-duplicate counter to 0 (fail open). -/
theorem c4_fail_open (t : DuplicateTracker) (e : String) :
    checkDuplicate (.err e) = false ∧
    processCheck t (.err e) =
      (⟨false, false⟩, { t with consecutiveDuplicates := 0 }) :=
  ⟨rfl, rfl⟩

/-! ### Embedding client (`generateEmbedding` in jobyAviationService.ts /
techcrunchService.ts / wiskAeroService.ts — identical code) -/

/-- Outcome of one call to the embedding provider (`voyageai.embed`): a
successful response whose first datum may or may not carry an embedding, a
throttling error (HTTP 429, optionally carrying a `retry_after` hint in
seconds), or any other error. -/
inductive EmbedAttempt where
  | success (embedding : Option (List Int))
  | rateLimit (retryAfter : Option Nat)
  | failure (msg : String)

/-- The distinguishable error conditions `generateEmbedding` can fail with:
the dedicated rate-limit message thrown after `maxRetries` throttled
attempts, re-throwing any other provider error, and the unreachable
fall-through message after the while loop. -/
inductive EmbedError where
  | rateLimitExceeded (attempts : Nat)
  | other (msg : String)
  | exhausted
deriving DecidableEq

/-- A pacing or backoff delay imposed by `generateEmbedding`, in
milliseconds: the fixed 20000 ms delay before the first attempt, the
exponential backoff computed at the top of the loop before a retry, or the
retry-after delay applied in the 429 handler. -/
inductive DelayEvent where
  | initial (ms : Nat)
  | backoff (ms : Nat)
  | retryAfter (ms : Nat)
deriving DecidableEq

/-- The backoff formula `Math.min(20000 * Math.pow(2, attempt - 1), 60000)`. -/
def backoffDelay (attempt : Nat) : Nat :=
  min (20000 * 2 ^ (attempt - 1)) 60000

/-- The retry loop of `generateEmbedding`. `provider i` is what the
provider answers on the attempt with counter value `i`; `fuel` is
`maxRetries - attempt`, so `fuel = 0` is exactly the while-condition
`attempt < maxRetries` failing, which falls through to the final throw.
Returns the result together with the list of delays imposed, in order. -/
def genEmbedAux (provider : Nat → EmbedAttempt) (maxRetries : Nat) :
    Nat → Nat → Except EmbedError (List Int) × List DelayEvent
  | 0, _ => (.error .exhausted, [])
  | fuel + 1, attempt =>
    let d : DelayEvent :=
      if attempt > 0 then .backoff (backoffDelay attempt) else .initial 20000
    match provider attempt with
    | .success e => (.ok (e.getD []), [d])
    | .rateLimit hint =>
      if attempt + 1 < maxRetries then
        let rest := genEmbedAux provider maxRetries fuel (attempt + 1)
        (rest.1, d :: .retryAfter ((hint.getD 20) * 1000) :: rest.2)
      else
        (.error (.rateLimitExceeded maxRetries), [d])
    | .failure msg => (.error (.other msg), [d])

/-- `generateEmbedding(content, retries = 3)`: run the retry loop from
`attempt = 0`. -/
def generateEmbedding (provider : Nat → EmbedAttempt) (maxRetries : Nat := 3) :
    Except EmbedError (List Int) × List DelayEvent :=
  genEmbedAux provider maxRetries maxRetries 0

/-- The exponential-backoff delays among the delays of a run, in order. -/
def backoffsOf (ds : List DelayEvent) : List Nat :=
  ds.filterMap fun d =>
    match d with
    | .backoff ms => some ms
    | _ => none

theorem backoffDelay_mono : Monotone backoffDelay := by
  intro a b hab
  unfold backoffDelay
  have h2 : 20000 * 2 ^ (a - 1) ≤ 20000 * 2 ^ (b - 1) :=
    Nat.mul_le_mul_left _ (Nat.pow_le_pow_right (by decide) (Nat.sub_le_sub_right hab 1))
  exact min_le_min h2 le_rfl

theorem backoffDelay_le : ∀ a, backoffDelay a ≤ 60000 := fun _ => min_le_right _ _

theorem genEmbedAux_throttle (provider : Nat → EmbedAttempt)
    (hp : ∀ i, provider i = .rateLimit none) (M : Nat) :
    ∀ fuel attempt, attempt + fuel = M → 0 < fuel → 0 < attempt →
      (genEmbedAux provider M fuel attempt).1 = .error (.rateLimitExceeded M) ∧
      backoffsOf (genEmbedAux provider M fuel attempt).2 =
        (List.range' attempt fuel).map backoffDelay := by
  intro fuel
  induction fuel with
  | zero => intro attempt _ h; exact absurd h (by decide)
  | succ fuel ih =>
    intro attempt hM _ ha
    simp only [genEmbedAux, hp attempt]
    by_cases hlt : attempt + 1 < M
    · have hfuel : 0 < fuel := by omega
      obtain ⟨ih1, ih2⟩ := ih (attempt + 1) (by omega) hfuel (by omega)
      rw [if_pos hlt]
      refine ⟨ih1, ?_⟩
      have hd : (if attempt > 0 then DelayEvent.backoff (backoffDelay attempt)
          else DelayEvent.initial 20000) = .backoff (backoffDelay attempt) :=
        if_pos ha
      rw [hd]
      simp only [backoffsOf, List.filterMap_cons] at ih2 ⊢
      rw [ih2, List.range']
      rfl
    · have hfuel0 : fuel = 0 := by omega
      rw [if_neg hlt]
      refine ⟨rfl, ?_⟩
      have hd : (if attempt > 0 then DelayEvent.backoff (backoffDelay attempt)
          else DelayEvent.initial 20000) = .backoff (backoffDelay attempt) :=
        if_pos ha
      rw [hd, hfuel0]
      simp [backoffsOf, List.range']

theorem generateEmbedding_throttle (provider : Nat → EmbedAttempt)
    (hp : ∀ i, provider i = .rateLimit none) (M : Nat) (hM : 0 < M) :
    (generateEmbedding provider M).1 = .error (.rateLimitExceeded M) ∧
    backoffsOf (generateEmbedding provider M).2 =
      (List.range' 1 (M - 1)).map backoffDelay := by
  unfold generateEmbedding
  obtain ⟨M', rfl⟩ : ∃ M', M = M' + 1 := ⟨M - 1, by omega⟩
  simp only [genEmbedAux, hp 0]
  by_cases hlt : 0 + 1 < M' + 1
  · rw [if_pos hlt]
    obtain ⟨h1, h2⟩ := genEmbedAux_throttle provider hp (M' + 1) M' 1 (by omega)
      (by omega) (by decide)
    refine ⟨h1, ?_⟩
    simp only [backoffsOf, List.filterMap_cons] at h2 ⊢
    rw [if_neg (by decide)]
    simpa using h2
  · have : M' = 0 := by omega
    subst this
    rw [if_neg hlt]
    simp [backoffsOf, List.range']

/-- C9: for consecutive throttling responses with no retry-after hint, the
backoff delays computed by the embedding client are exactly
`min (20000 * 2 ^ (attempt - 1)) 60000` for attempts `1 .. maxRetries - 1`;
they form a non-decreasing sequence, each bounded by the 60000 ms ceiling,
and after `maxRetries` consecutive throttling responses the client fails
with the distinguishable rate-limit-exceeded error rather than a generic
one. -/
theorem c9_backoff_monotone (provider : Nat → EmbedAttempt)
    (hp : ∀ i, provider i = .rateLimit none) (M : Nat) (hM : 0 < M) :
    (generateEmbedding provider M).1 = .error (.rateLimitExceeded M)
    ∧ backoffsOf (generateEmbedding provider M).2 =
        (List.range' 1 (M - 1)).map backoffDelay
    ∧ (backoffsOf (generateEmbedding provider M).2).Pairwise (· ≤ ·)
    ∧ (∀ ms ∈ backoffsOf (generateEmbedding provider M).2, ms ≤ 60000) := by
  obtain ⟨h1, h2⟩ := generateEmbedding_throttle provider hp M hM
  refine ⟨h1, h2, ?_, ?_⟩
  · rw [h2]
    refine List.Pairwise.map backoffDelay (fun a b (hab : a < b) => backoffDelay_mono hab.le) ?_
    exact List.pairwise_lt_range' 1 (M - 1)
  · intro ms hms
    rw [h2] at hms
    obtain ⟨a, _, rfl⟩ := List.mem_map.mp hms
    exact backoffDelay_le a

/-- Witness for C9 at the default `maxRetries = 3`: three consecutive
throttling responses produce backoff delays 20000, 40000 and the
rate-limit-exceeded error. -/
theorem c9_backoff_monotone_witness :
    (∀ i : Nat, (fun _ : Nat => EmbedAttempt.rateLimit none) i = .rateLimit none)
    ∧ (0 < 3)
    ∧ ((generateEmbedding (fun _ => .rateLimit none) 3).1 =
        .error (.rateLimitExceeded 3)
      ∧ backoffsOf (generateEmbedding (fun _ => .rateLimit none) 3).2 =
          (List.range' 1 (3 - 1)).map backoffDelay
      ∧ (backoffsOf (generateEmbedding (fun _ => .rateLimit none) 3).2).Pairwise (· ≤ ·)
      ∧ (∀ ms ∈ backoffsOf (generateEmbedding (fun _ => .rateLimit none) 3).2,
          ms ≤ 60000)) :=
  ⟨fun _ => rfl, by decide,
   c9_backoff_monotone (fun _ => .rateLimit none) (fun _ => rfl) 3 (by decide)⟩

/-! ### Content classifier (`analyzeSentiment` in jobyAviationService.ts) -/

/-- Lowercase a string (JavaScript `toLowerCase`), written over the
character list so that it reduces in the kernel. -/
def strToLower (s : String) : String :=
  ⟨s.data.map Char.toLower⟩

/-- Strip leading and trailing whitespace (JavaScript `trim`), written over
the character list so that it reduces in the kernel. -/
def strTrim (s : String) : String :=
  ⟨((s.data.dropWhile Char.isWhitespace).reverse.dropWhile Char.isWhitespace).reverse⟩

/-- Test whether the first list is an initial segment of the second. -/
def leadsWith : List Char → List Char → Bool
  | [], _ => true
  | _ :: _, [] => false
  | a :: as, b :: bs => a == b && leadsWith as bs

/-- Test whether `needle` occurs contiguously inside `hay`. -/
def containsSeq : List Char → List Char → Bool
  | [], needle => needle.isEmpty
  | c :: rest, needle => leadsWith needle (c :: rest) || containsSeq rest needle

/-- JavaScript `hay.includes(needle)` on strings. -/
def strIncludes (hay needle : String) : Bool :=
  containsSeq hay.data needle.data

/-- The positive keyword list of `JobyAviationService.analyzeSentiment`. -/
def positiveWords : List String :=
  ["success", "achievement", "milestone", "demonstration", "partnership",
   "innovation", "breakthrough"]

/-- The negative keyword list of `JobyAviationService.analyzeSentiment`. -/
def negativeWords : List String :=
  ["challenge", "delay", "issue", "concern", "risk"]

/-- Number of positive keywords found in the lowercased content. -/
def positiveCount (content : String) : Nat :=
  (positiveWords.filter (fun w => strIncludes (strToLower content) w)).length

/-- Number of negative keywords found in the lowercased content. -/
def negativeCount (content : String) : Nat :=
  (negativeWords.filter (fun w => strIncludes (strToLower content) w)).length

/-- `JobyAviationService.analyzeSentiment`. -/
def analyzeSentiment (content : String) : String :=
  if positiveCount content > negativeCount content then "positive"
  else if negativeCount content > positiveCount content then "negative"
  else "neutral"

/-- The positive keyword list of `TechCrunchService.analyzeSentiment`. -/
def tcPositiveWords : List String :=
  ["success", "achievement", "milestone", "partnership", "innovation",
   "breakthrough", "approval", "raises", "funding"]

/-- The negative keyword list of `TechCrunchService.analyzeSentiment`. -/
def tcNegativeWords : List String :=
  ["challenge", "delay", "issue", "concern", "risk", "accident", "crash",
   "shuts down", "bankruptcy"]

/-- `TechCrunchService.analyzeSentiment`. -/
def tcAnalyzeSentiment (content : String) : String :=
  let p := (tcPositiveWords.filter (fun w => strIncludes (strToLower content) w)).length
  let n := (tcNegativeWords.filter (fun w => strIncludes (strToLower content) w)).length
  if p > n then "positive"
  else if n > p then "negative"
  else "neutral"

/-- C10: for every input string the sentiment classifier returns exactly one
of "positive", "neutral", "negative", and returns "neutral" precisely when
the number of matched positive keywords equals the number of matched
negative keywords — in particular on the empty string. -/
theorem c10_sentiment_classification (content : String) :
    (analyzeSentiment content = "positive" ∨ analyzeSentiment content = "neutral" ∨
      analyzeSentiment content = "negative")
    ∧ (analyzeSentiment content = "neutral" ↔
        positiveCount content = negativeCount content)
    ∧ analyzeSentiment "" = "neutral" := by
  unfold analyzeSentiment
  rcases Nat.lt_trichotomy (positiveCount content) (negativeCount content) with h | h | h
  · rw [if_neg (by omega), if_pos h]
    refine ⟨Or.inr (Or.inr rfl), ?_, by decide⟩
    constructor
    · intro he
      exact absurd he (by decide)
    · intro he
      omega
  · rw [if_neg (by omega), if_neg (by omega)]
    exact ⟨Or.inr (Or.inl rfl), ⟨fun _ => h, fun _ => rfl⟩, by decide⟩
  · rw [if_pos h]
    refine ⟨Or.inl rfl, ?_, by decide⟩
    constructor
    · intro he
      exact absurd he (by decide)
    · intro he
      omega

/-! ### Per-URL processing (`processAndStoreDirectUrl` in
jobyAviationService.ts, `processAndStoreArticle` in techcrunchService.ts,
`storeInDatabase` in betaTechnologiesService.ts) -/

/-- The fields of a fetched Joby article that influence control flow and the
stored record. -/
structure JobyContent where
  title : String
  content : String
deriving DecidableEq

/-- A row of the `news` table as inserted by `storeNews`. -/
structure StoredDoc where
  url : String
  title : String
  content : String
  sentiment : String
  embedding : List Int
deriving DecidableEq

/-- Result shape of `processAndStoreDirectUrl`. -/
structure ProcessOutcome where
  processed : Bool
  isDuplicate : Bool
deriving DecidableEq

/-- `storeNews`: insert the document row into the `news` table. -/
def storeNews (store : List StoredDoc) (doc : StoredDoc) : List StoredDoc :=
  store ++ [doc]

/-- The tail of `processAndStoreDirectUrl` after the duplicate check: fetch
(`fetchArticleContentDirect` result given as `fetched`), the empty-content
guards, embedding generation (whose thrown error is caught by the outer
catch, yielding `processed = false` with nothing stored), and `storeNews`. -/
def jobyFetchEmbedStore (newsStore : List StoredDoc) (tracker : Option DuplicateTracker)
    (url : String) (provider : Nat → EmbedAttempt) :
    Option JobyContent → ProcessOutcome × List StoredDoc × Option DuplicateTracker
  | none => (⟨false, false⟩, newsStore, tracker)
  | some c =>
    if c.title = "" ∧ c.content = "" then (⟨false, false⟩, newsStore, tracker)
    else if strTrim c.content = "" then (⟨false, false⟩, newsStore, tracker)
    else
      match (generateEmbedding provider 3).1 with
      | .error _ => (⟨false, false⟩, newsStore, tracker)
      | .ok emb =>
        (⟨true, false⟩,
         storeNews newsStore
           { url := url,
             title := if c.title = "" then "Joby Aviation Content" else c.title,
             content := c.content,
             sentiment := analyzeSentiment c.content,
             embedding := emb },
         tracker)

/-- `JobyAviationService.processAndStoreDirectUrl`. The duplicate tracker is
configured on the `news_duplicate` table (modelled as the url list
`trackStore`), while `recordExists` and `storeNews` use the `news` table
(modelled as `newsStore`). `lookupFails` makes the existence query throw. -/
def processAndStoreDirectUrl (trackStore : List String) (newsStore : List StoredDoc)
    (tracker : Option DuplicateTracker) (url : String) (lookupFails : Bool)
    (fetched : Option JobyContent) (provider : Nat → EmbedAttempt) :
    ProcessOutcome × List StoredDoc × Option DuplicateTracker :=
  match tracker with
  | some t =>
    let outcome : LookupOutcome :=
      if lookupFails then .err "lookup failed"
      else .ok (some (trackStore.countP (fun u => u == url)))
    let p := processCheck t outcome
    if p.1.shouldStop then (⟨false, true⟩, newsStore, some p.2)
    else if p.1.isDuplicate then (⟨false, true⟩, newsStore, some p.2)
    else jobyFetchEmbedStore newsStore (some p.2) url provider fetched
  | none =>
    let outcome : LookupOutcome :=
      if lookupFails then .err "lookup failed"
      else .ok (some (newsStore.countP (fun d => d.url == url)))
    if checkDuplicate outcome then (⟨false, true⟩, newsStore, none)
    else jobyFetchEmbedStore newsStore none url provider fetched

/-- The fields of a fetched TechCrunch article that influence control flow
and the stored record. -/
structure TCContent where
  title : String
  rawHtml : String
  cleanText : String
deriving DecidableEq

/-- `TechCrunchService.processAndStoreArticle`: duplicate pre-check by url,
fetch, empty-content guard, then best-effort embedding — an embedding
failure is caught locally and replaced by the empty vector before storing. -/
def tcProcessAndStoreArticle (newsStore : List StoredDoc) (url : String)
    (lookupFails : Bool) (fetched : Option TCContent) (provider : Nat → EmbedAttempt) :
    Bool × List StoredDoc :=
  let recordFound : Bool :=
    if lookupFails then false else newsStore.countP (fun d => d.url == url) > 0
  if recordFound then
    (false, newsStore)
  else
    match fetched with
    | none => (false, newsStore)
    | some c =>
      if strTrim c.rawHtml = "" then (false, newsStore)
      else
        (true,
         storeNews newsStore
           { url := url,
             title := c.title,
             content := c.rawHtml,
             sentiment := tcAnalyzeSentiment c.cleanText,
             embedding :=
               match (generateEmbedding provider 3).1 with
               | .ok e => e
               | .error _ => [] })

/-- Supabase `upsert` with `onConflict: 'url'`: replace the row with the
same url if present, insert otherwise. -/
def upsertByUrl (store : List StoredDoc) (doc : StoredDoc) : List StoredDoc :=
  if store.any (fun d => d.url == doc.url) then
    store.map (fun d => if d.url == doc.url then doc else d)
  else store ++ [doc]

/-- The retry loop of `BetaTechnologiesService.generateEmbedding`, which —
unlike the Joby/TechCrunch client — never throws: a throttled attempt at the
retry budget falls through to `return []`, any other error below the budget
just loops again, and exhausting the budget returns `[]`. The pacing and
retry-after delays only wait and are elided here. As before, `fuel` is
`maxRetries - attempt`. -/
def betaGenEmbedAux (provider : Nat → EmbedAttempt) (maxRetries : Nat) :
    Nat → Nat → List Int
  | 0, _ => []
  | fuel + 1, attempt =>
    match provider attempt with
    | .success e => e.getD []
    | .rateLimit _ =>
      if attempt + 1 < maxRetries then betaGenEmbedAux provider maxRetries fuel (attempt + 1)
      else []
    | .failure _ =>
      if attempt + 1 ≥ maxRetries then []
      else betaGenEmbedAux provider maxRetries fuel (attempt + 1)

/-- Beta's `generateEmbedding(content, retries = 3)`. -/
def betaGenerateEmbedding (provider : Nat → EmbedAttempt) (maxRetries : Nat := 3) :
    List Int :=
  betaGenEmbedAux provider maxRetries maxRetries 0

/-- `BetaTechnologiesService.storeInDatabase`: duplicate pre-check by url,
then embedding generation via Beta's non-throwing client, then upsert keyed
on url. -/
def storeInDatabase (store : List StoredDoc) (url : String) (lookupFails : Bool)
    (title content : String) (provider : Nat → EmbedAttempt) :
    ProcessOutcome × List StoredDoc :=
  let recordFound : Bool :=
    if lookupFails then false else store.countP (fun d => d.url == url) > 0
  if recordFound then
    (⟨false, true⟩, store)
  else
    (⟨true, false⟩,
     upsertByUrl store
       { url := url, title := title, content := content,
         sentiment := "", embedding := betaGenerateEmbedding provider 3 })

theorem processCheck_isDup (t : DuplicateTracker) (o : LookupOutcome) :
    (processCheck t o).1.isDuplicate = checkDuplicate o := by
  unfold processCheck
  cases h : checkDuplicate o
  · rfl
  · rw [if_pos rfl]
    split <;> rfl

theorem processCheck_processed_dup (t : DuplicateTracker) (o : LookupOutcome)
    (hd : checkDuplicate o = true) :
    processCheck t o =
      ((⟨true, (processCheck t o).1.shouldStop⟩ : CheckResult),
       { t with consecutiveDuplicates := t.consecutiveDuplicates + 1 }) := by
  unfold processCheck
  rw [hd, if_pos rfl]
  split <;> rfl

theorem countP_pos_checkDup {α : Type} (p : α → Bool) (l : List α)
    (h : 0 < l.countP p) : checkDuplicate (.ok (some (l.countP p))) = true := by
  unfold checkDuplicate
  simp only [Option.getD_some]
  exact decide_eq_true h

theorem processAndStoreDirectUrl_trackerDup (trackStore : List String)
    (newsStore : List StoredDoc) (t : DuplicateTracker) (url : String)
    (fetched : Option JobyContent) (provider : Nat → EmbedAttempt)
    (hdup : 0 < trackStore.countP (fun u => u == url)) :
    processAndStoreDirectUrl trackStore newsStore (some t) url false fetched provider =
      (⟨false, true⟩, newsStore,
       some { t with consecutiveDuplicates := t.consecutiveDuplicates + 1 }) := by
  have hd := countP_pos_checkDup (fun u => u == url) trackStore hdup
  unfold processAndStoreDirectUrl
  simp only [if_neg Bool.false_ne_true]
  rw [processCheck_processed_dup t _ hd]
  split <;> rfl

theorem processAndStoreDirectUrl_newsDup (trackStore : List String)
    (newsStore : List StoredDoc) (url : String)
    (fetched : Option JobyContent) (provider : Nat → EmbedAttempt)
    (hdup : 0 < newsStore.countP (fun d => d.url == url)) :
    processAndStoreDirectUrl trackStore newsStore none url false fetched provider =
      (⟨false, true⟩, newsStore, none) := by
  have hd := countP_pos_checkDup (fun d => d.url == url) newsStore hdup
  unfold processAndStoreDirectUrl
  simp only [if_neg Bool.false_ne_true]
  rw [hd]
  rfl

theorem jobyFetchEmbedStore_store (newsStore : List StoredDoc)
    (tracker : Option DuplicateTracker) (url : String)
    (fetched : Option JobyContent) (provider : Nat → EmbedAttempt) :
    (jobyFetchEmbedStore newsStore tracker url provider fetched).2.1 = newsStore ∨
    ∃ doc : StoredDoc, doc.url = url ∧
      (jobyFetchEmbedStore newsStore tracker url provider fetched).2.1 =
        newsStore ++ [doc] := by
  cases fetched with
  | none => exact Or.inl rfl
  | some c =>
    simp only [jobyFetchEmbedStore]
    by_cases h1 : c.title = "" ∧ c.content = ""
    · rw [if_pos h1]
      exact Or.inl rfl
    · rw [if_neg h1]
      by_cases h2 : strTrim c.content = ""
      · rw [if_pos h2]
        exact Or.inl rfl
      · rw [if_neg h2]
        cases hge : (generateEmbedding provider 3).1 with
        | error e => exact Or.inl rfl
        | ok emb =>
          exact Or.inr ⟨⟨url, (if c.title = "" then "Joby Aviation Content" else c.title),
            c.content, analyzeSentiment c.content, emb⟩, rfl, rfl⟩

theorem countP_eq_zero_not_mem (newsStore : List StoredDoc) (url : String)
    (h : newsStore.countP (fun d => d.url == url) = 0) :
    url ∉ newsStore.map StoredDoc.url := by
  intro hmem
  obtain ⟨d, hd, hurl⟩ := List.mem_map.mp hmem
  have hall := List.countP_eq_zero.mp h d hd
  rw [hurl] at hall
  exact hall (beq_self_eq_true url)

theorem nodup_append_single (l : List String) (a : String)
    (hnd : l.Nodup) (hmem : a ∉ l) : (l ++ [a]).Nodup := by
  rw [List.nodup_append]
  exact ⟨hnd, List.nodup_singleton a, by simpa [List.disjoint_singleton] using hmem⟩

theorem processAndStoreDirectUrl_nodup (trackStore : List String)
    (newsStore : List StoredDoc) (url : String)
    (fetched : Option JobyContent) (provider : Nat → EmbedAttempt)
    (hnd : (newsStore.map StoredDoc.url).Nodup) :
    (((processAndStoreDirectUrl trackStore newsStore none url false
        fetched provider).2.1).map StoredDoc.url).Nodup := by
  unfold processAndStoreDirectUrl
  simp only [if_neg Bool.false_ne_true]
  cases hd : checkDuplicate (.ok (some (newsStore.countP (fun d => d.url == url)))) with
  | true => exact hnd
  | false =>
    have hzero : newsStore.countP (fun d => d.url == url) = 0 := by
      by_contra hne
      have hx := countP_pos_checkDup (fun d => d.url == url) newsStore (Nat.pos_of_ne_zero hne)
      rw [hx] at hd
      exact Bool.noConfusion hd
    rcases jobyFetchEmbedStore_store newsStore none url fetched provider with hsame | ⟨doc, hdu, happ⟩
    · show ((List.map StoredDoc.url
        (jobyFetchEmbedStore newsStore none url provider fetched).2.1).Nodup)
      rw [hsame]
      exact hnd
    · show ((List.map StoredDoc.url
        (jobyFetchEmbedStore newsStore none url provider fetched).2.1).Nodup)
      rw [happ, List.map_append, List.map_singleton, hdu]
      exact nodup_append_single _ _ hnd (countP_eq_zero_not_mem newsStore url hzero)

theorem upsertByUrl_urls (store : List StoredDoc) (doc : StoredDoc)
    (hpresent : store.any (fun d => d.url == doc.url) = true) :
    (upsertByUrl store doc).map StoredDoc.url = store.map StoredDoc.url := by
  unfold upsertByUrl
  rw [if_pos hpresent, List.map_map]
  apply List.map_congr_left
  intro d _
  by_cases h : d.url == doc.url
  · simp only [Function.comp_apply, if_pos h]
    exact (beq_iff_eq.mp h).symm
  · simp only [Function.comp_apply, if_neg h]

theorem upsertByUrl_nodup (store : List StoredDoc) (doc : StoredDoc)
    (hnd : (store.map StoredDoc.url).Nodup) :
    ((upsertByUrl store doc).map StoredDoc.url).Nodup := by
  by_cases hpresent : store.any (fun d => d.url == doc.url) = true
  · rw [upsertByUrl_urls store doc hpresent]
    exact hnd
  · unfold upsertByUrl
    rw [if_neg hpresent, List.map_append]
    apply nodup_append_single _ _ hnd
    intro hmem
    obtain ⟨d, hd, hurl⟩ := List.mem_map.mp hmem
    exact hpresent (List.any_eq_true.mpr ⟨d, hd, by rw [hurl]; exact beq_self_eq_true _⟩)

theorem storeInDatabase_dup (store : List StoredDoc) (url : String)
    (title content : String) (provider : Nat → EmbedAttempt)
    (hdup : 0 < store.countP (fun d => d.url == url)) :
    storeInDatabase store url false title content provider = (⟨false, true⟩, store) := by
  unfold storeInDatabase
  simp only [if_neg Bool.false_ne_true]
  rw [if_pos (decide_eq_true hdup)]

theorem betaGenEmbedAux_fail (provider : Nat → EmbedAttempt)
    (hf : ∀ i emb, provider i ≠ .success emb) (maxRetries : Nat) :
    ∀ fuel attempt, betaGenEmbedAux provider maxRetries fuel attempt = [] := by
  intro fuel
  induction fuel with
  | zero => intro _; rfl
  | succ fuel ih =>
    intro attempt
    unfold betaGenEmbedAux
    cases hp : provider attempt with
    | success emb => exact absurd hp (hf attempt emb)
    | rateLimit r =>
      show (if attempt + 1 < maxRetries then
          betaGenEmbedAux provider maxRetries fuel (attempt + 1) else []) = []
      by_cases hc : attempt + 1 < maxRetries
      · rw [if_pos hc]
        exact ih (attempt + 1)
      · rw [if_neg hc]
    | failure m =>
      show (if attempt + 1 ≥ maxRetries then []
          else betaGenEmbedAux provider maxRetries fuel (attempt + 1)) = []
      by_cases hc : attempt + 1 ≥ maxRetries
      · rw [if_pos hc]
      · rw [if_neg hc]
        exact ih (attempt + 1)

theorem betaGenerateEmbedding_fail (provider : Nat → EmbedAttempt)
    (hf : ∀ i emb, provider i ≠ .success emb) (maxRetries : Nat) :
    betaGenerateEmbedding provider maxRetries = [] :=
  betaGenEmbedAux_fail provider hf maxRetries maxRetries 0

theorem processAndStoreDirectUrl_untracked (trackStore : List String)
    (newsStore : List StoredDoc) (t : DuplicateTracker) (url : String)
    (fetched : Option JobyContent) (provider : Nat → EmbedAttempt)
    (hfree : trackStore.countP (fun u => u == url) = 0) :
    processAndStoreDirectUrl trackStore newsStore (some t) url false fetched provider =
      jobyFetchEmbedStore newsStore (some { t with consecutiveDuplicates := 0 })
        url provider fetched := by
  unfold processAndStoreDirectUrl
  rw [hfree]
  rfl

/-- C3 (counterexample): the production Joby configuration checks
duplicates against the `news_duplicate` table while `storeNews` inserts
into `news`. For a url already present in the news store but absent from
the tracked table, the tracker path re-inserts it: the attempt reports
`processed = true` and the store ends up with two rows for the same url, so
the second attempt is neither treated as a duplicate/skip nor does the url
stay globally unique. -/
theorem c3_counterexample :
    (processAndStoreDirectUrl [] [⟨"u", "old", "body", "neutral", [1]⟩]
        (some (mkTracker 5)) "u" false (some ⟨"new", "body"⟩)
        (fun _ => .success (some [1]))).1.processed = true
    ∧ ((processAndStoreDirectUrl [] [⟨"u", "old", "body", "neutral", [1]⟩]
        (some (mkTracker 5)) "u" false (some ⟨"new", "body"⟩)
        (fun _ => .success (some [1]))).2.1).map StoredDoc.url = ["u", "u"]
    ∧ ¬ ((["u", "u"] : List String).Nodup) :=
  ⟨by decide, by decide, by decide⟩

/-- C3 (amended): a second attempt to store a present url is treated as a
duplicate/skip with url uniqueness preserved exactly on the paths whose
existence check consults the table being written: (i) Joby's
`processAndStoreDirectUrl` without a tracker skips when `recordExists`
finds the url in the news store, leaving it unchanged; (ii) with a tracker
it skips, with the store unchanged, when the separately-configured tracked
table contains the url; (iii) Beta's `storeInDatabase` skips when the url
exists; (iv) Beta's upsert keyed on url preserves url-uniqueness; (v)
Joby's no-tracker path preserves url-uniqueness whenever the existence
check succeeds; but (vi) on the tracker path the check ignores the news
store entirely — for a url absent from the tracked table the call reduces
to the unguarded fetch-and-store tail, so a url present only in the news
store is re-inserted there (the original guarantee fails on that path). -/
theorem c3_url_idempotent (trackStore : List String)
    (newsStore store : List StoredDoc) (t : DuplicateTracker) (url burl : String)
    (fetched : Option JobyContent) (provider bprovider : Nat → EmbedAttempt)
    (btitle bcontent : String) (doc : StoredDoc) :
    (0 < newsStore.countP (fun d => d.url == url) →
      processAndStoreDirectUrl trackStore newsStore none url false fetched provider =
        (⟨false, true⟩, newsStore, none))
    ∧ (0 < trackStore.countP (fun u => u == url) →
        processAndStoreDirectUrl trackStore newsStore (some t) url false fetched provider =
          (⟨false, true⟩, newsStore,
           some { t with consecutiveDuplicates := t.consecutiveDuplicates + 1 }))
    ∧ (0 < store.countP (fun d => d.url == burl) →
        storeInDatabase store burl false btitle bcontent bprovider = (⟨false, true⟩, store))
    ∧ ((store.map StoredDoc.url).Nodup →
        ((upsertByUrl store doc).map StoredDoc.url).Nodup)
    ∧ ((newsStore.map StoredDoc.url).Nodup →
        (((processAndStoreDirectUrl trackStore newsStore none url false
            fetched provider).2.1).map StoredDoc.url).Nodup)
    ∧ (trackStore.countP (fun u => u == url) = 0 →
        processAndStoreDirectUrl trackStore newsStore (some t) url false fetched provider =
          jobyFetchEmbedStore newsStore (some { t with consecutiveDuplicates := 0 })
            url provider fetched) :=
  ⟨processAndStoreDirectUrl_newsDup trackStore newsStore url fetched provider,
   processAndStoreDirectUrl_trackerDup trackStore newsStore t url fetched provider,
   storeInDatabase_dup store burl btitle bcontent bprovider,
   upsertByUrl_nodup store doc,
   processAndStoreDirectUrl_nodup trackStore newsStore url fetched provider,
   processAndStoreDirectUrl_untracked trackStore newsStore t url fetched provider⟩

/-- Witness for C3 (amended) on a one-document store holding url "u"
(conjuncts i-v) and on an empty tracked table (conjunct vi). -/
theorem c3_url_idempotent_witness :
    (0 < ([⟨"u", "t", "c", "neutral", []⟩] : List StoredDoc).countP
      (fun d => d.url == "u"))
    ∧ (0 < (["u"] : List String).countP (fun u => u == "u"))
    ∧ ((([⟨"u", "t", "c", "neutral", []⟩] : List StoredDoc).map StoredDoc.url).Nodup)
    ∧ (([] : List String).countP (fun u => u == "u") = 0)
    ∧ processAndStoreDirectUrl ["u"] [⟨"u", "t", "c", "neutral", []⟩] none "u" false
        none (fun _ => .success none) =
        (⟨false, true⟩, [⟨"u", "t", "c", "neutral", []⟩], none)
    ∧ processAndStoreDirectUrl ["u"] [⟨"u", "t", "c", "neutral", []⟩]
        (some (mkTracker 5)) "u" false none (fun _ => .success none) =
        (⟨false, true⟩, [⟨"u", "t", "c", "neutral", []⟩], some ⟨1, 5⟩)
    ∧ storeInDatabase [⟨"u", "t", "c", "neutral", []⟩] "u" false "t" "c"
        (fun _ => .success none) =
        (⟨false, true⟩, [⟨"u", "t", "c", "neutral", []⟩])
    ∧ ((upsertByUrl [⟨"u", "t", "c", "neutral", []⟩]
        ⟨"u", "t2", "c2", "neutral", []⟩).map StoredDoc.url).Nodup
    ∧ (((processAndStoreDirectUrl ["u"] [⟨"u", "t", "c", "neutral", []⟩] none "u"
        false none (fun _ => .success none)).2.1).map StoredDoc.url).Nodup
    ∧ processAndStoreDirectUrl [] [⟨"u", "t", "c", "neutral", []⟩]
        (some (mkTracker 5)) "u" false none (fun _ => .success none) =
        jobyFetchEmbedStore [⟨"u", "t", "c", "neutral", []⟩] (some ⟨0, 5⟩) "u"
          (fun _ => .success none) none := by
  refine ⟨by decide, by decide, by decide, by decide, ?_, ?_, ?_, ?_, ?_, ?_⟩
  · exact (c3_url_idempotent ["u"] [⟨"u", "t", "c", "neutral", []⟩]
      [⟨"u", "t", "c", "neutral", []⟩] (mkTracker 5) "u" "u" none
      (fun _ => .success none) (fun _ => .success none) "t" "c"
      ⟨"u", "t2", "c2", "neutral", []⟩).1 (by decide)
  · exact (c3_url_idempotent ["u"] [⟨"u", "t", "c", "neutral", []⟩]
      [⟨"u", "t", "c", "neutral", []⟩] (mkTracker 5) "u" "u" none
      (fun _ => .success none) (fun _ => .success none) "t" "c"
      ⟨"u", "t2", "c2", "neutral", []⟩).2.1 (by decide)
  · exact (c3_url_idempotent ["u"] [⟨"u", "t", "c", "neutral", []⟩]
      [⟨"u", "t", "c", "neutral", []⟩] (mkTracker 5) "u" "u" none
      (fun _ => .success none) (fun _ => .success none) "t" "c"
      ⟨"u", "t2", "c2", "neutral", []⟩).2.2.1 (by decide)
  · exact (c3_url_idempotent ["u"] [⟨"u", "t", "c", "neutral", []⟩]
      [⟨"u", "t", "c", "neutral", []⟩] (mkTracker 5) "u" "u" none
      (fun _ => .success none) (fun _ => .success none) "t" "c"
      ⟨"u", "t2", "c2", "neutral", []⟩).2.2.2.1 (by decide)
  · exact (c3_url_idempotent ["u"] [⟨"u", "t", "c", "neutral", []⟩]
      [⟨"u", "t", "c", "neutral", []⟩] (mkTracker 5) "u" "u" none
      (fun _ => .success none) (fun _ => .success none) "t" "c"
      ⟨"u", "t2", "c2", "neutral", []⟩).2.2.2.2.1 (by decide)
  · exact (c3_url_idempotent [] [⟨"u", "t", "c", "neutral", []⟩]
      [⟨"u", "t", "c", "neutral", []⟩] (mkTracker 5) "u" "u" none
      (fun _ => .success none) (fun _ => .success none) "t" "c"
      ⟨"u", "t2", "c2", "neutral", []⟩).2.2.2.2.2 (by decide)

/-- C2 (counterexample): with a fresh store and a successfully fetched
article, an embedding failure makes the Joby service's
`processAndStoreDirectUrl` return `processed = false` with the store left
empty — the document is not stored with an empty embedding vector and the
item is not counted as processed, contradicting the claim. -/
theorem c2_counterexample :
    (processAndStoreDirectUrl [] [] none "https://example.com/a" false
        (some ⟨"Title", "Body"⟩) (fun _ => .failure "boom")).1.processed = false
    ∧ (processAndStoreDirectUrl [] [] none "https://example.com/a" false
        (some ⟨"Title", "Body"⟩) (fun _ => .failure "boom")).2.1 = [] :=
  ⟨rfl, rfl⟩

/-- C2 (amended): embedding failure never blocks storage in the TechCrunch
and Beta services, but it does in the Joby service (the cited code):
TechCrunch's `processAndStoreArticle` catches the failure locally and
stores the document with an empty vector, reporting it processed; Beta's
own embedding client returns `[]` after exhausting retries (it never
throws) and `storeInDatabase` persists the record with the empty vector,
reporting `processed = true`; in the Joby service an embedding failure
propagates to the outer catch, so nothing is persisted and the item comes
back `processed = false`. -/
theorem c2_embedding_failure_paths (trackStore : List String)
    (newsStore : List StoredDoc) (url : String) (c : TCContent) (j : JobyContent)
    (provider : Nat → EmbedAttempt) (e : EmbedError) (btitle bcontent : String)
    (hfail : (generateEmbedding provider 3).1 = .error e)
    (hf : ∀ i emb, provider i ≠ .success emb)
    (hnew : newsStore.countP (fun d => d.url == url) = 0)
    (hraw : ¬ strTrim c.rawHtml = "")
    (hjt : ¬ (j.title = "" ∧ j.content = ""))
    (hjc : ¬ strTrim j.content = "") :
    tcProcessAndStoreArticle newsStore url false (some c) provider =
      (true, storeNews newsStore
        ⟨url, c.title, c.rawHtml, tcAnalyzeSentiment c.cleanText, []⟩)
    ∧ storeInDatabase newsStore url false btitle bcontent provider =
        (⟨true, false⟩, upsertByUrl newsStore ⟨url, btitle, bcontent, "", []⟩)
    ∧ processAndStoreDirectUrl trackStore newsStore none url false (some j) provider =
        (⟨false, false⟩, newsStore, none) := by
  have h0 : decide ((0 : Nat) > 0) = false := rfl
  refine ⟨?_, ?_, ?_⟩
  · simp only [tcProcessAndStoreArticle, hnew, h0, if_neg Bool.false_ne_true]
    rw [if_neg hraw, hfail]
  · simp only [storeInDatabase, hnew, h0, if_neg Bool.false_ne_true]
    rw [betaGenerateEmbedding_fail provider hf 3]
  · unfold processAndStoreDirectUrl
    simp only [if_neg Bool.false_ne_true, hnew]
    rw [show checkDuplicate (.ok (some 0)) = false from rfl]
    simp only [Bool.false_eq_true, if_false, jobyFetchEmbedStore]
    rw [if_neg hjt, if_neg hjc, hfail]

/-- Witness for C2 (amended) on concrete article contents and a provider
that always fails. -/
theorem c2_embedding_failure_paths_witness :
    ((generateEmbedding (fun _ => .failure "boom") 3).1 = .error (.other "boom"))
    ∧ (∀ (i : Nat) (emb : Option (List Int)),
        (fun _ : Nat => EmbedAttempt.failure "boom") i ≠ .success emb)
    ∧ (([] : List StoredDoc).countP (fun d => d.url == "u") = 0)
    ∧ ¬ strTrim "<p>x</p>" = ""
    ∧ ¬ (("T" : String) = "" ∧ ("x" : String) = "")
    ∧ ¬ strTrim "x" = ""
    ∧ tcProcessAndStoreArticle [] "u" false (some ⟨"T", "<p>x</p>", "x"⟩)
        (fun _ => .failure "boom") =
        (true, storeNews [] ⟨"u", "T", "<p>x</p>", tcAnalyzeSentiment "x", []⟩)
    ∧ storeInDatabase [] "u" false "bt" "bc" (fun _ => .failure "boom") =
        (⟨true, false⟩, upsertByUrl [] ⟨"u", "bt", "bc", "", []⟩)
    ∧ processAndStoreDirectUrl [] [] none "u" false (some ⟨"T", "x"⟩)
        (fun _ => .failure "boom") =
        (⟨false, false⟩, [], none) := by
  refine ⟨rfl, fun i emb h => EmbedAttempt.noConfusion h, rfl,
    by decide, by decide, by decide, ?_, ?_, ?_⟩
  · exact (c2_embedding_failure_paths [] [] "u" ⟨"T", "<p>x</p>", "x"⟩ ⟨"T", "x"⟩
      (fun _ => .failure "boom") (.other "boom") "bt" "bc" rfl
      (fun i emb h => EmbedAttempt.noConfusion h) rfl (by decide) (by decide)
      (by decide)).1
  · exact (c2_embedding_failure_paths [] [] "u" ⟨"T", "<p>x</p>", "x"⟩ ⟨"T", "x"⟩
      (fun _ => .failure "boom") (.other "boom") "bt" "bc" rfl
      (fun i emb h => EmbedAttempt.noConfusion h) rfl (by decide) (by decide)
      (by decide)).2.1
  · exact (c2_embedding_failure_paths [] [] "u" ⟨"T", "<p>x</p>", "x"⟩ ⟨"T", "x"⟩
      (fun _ => .failure "boom") (.other "boom") "bt" "bc" rfl
      (fun i emb h => EmbedAttempt.noConfusion h) rfl (by decide) (by decide)
      (by decide)).2.2

/-! ### Orchestration (`processJobySpecificData` in jobyAviationService.ts) -/

/-- One enumerated article together with the environment responses for its
processing attempt. -/
structure ArticleInput where
  url : String
  lookupFails : Bool
  fetched : Option JobyContent
  provider : Nat → EmbedAttempt

/-- State threaded through the article loop of `processJobySpecificData`:
the store, the shared tracker, the per-category counters, the run-global
document list, the urls submitted to the duplicate check so far, and the
early-stop flag. -/
structure LoopState where
  newsStore : List StoredDoc
  tracker : DuplicateTracker
  processedCount : Nat
  skippedCount : Nat
  failedCount : Nat
  allDocs : List String
  checked : List String
  stoppedEarly : Bool
deriving DecidableEq

/-- The per-category article loop: process each article via
`processAndStoreDirectUrl` with the shared tracker; after each call, if the
tracker says stop, set the early-stop flag and break — before counting that
candidate — otherwise count the article as processed (also recording its
url in the run-global document list) or as skipped. The catch that would
increment `failedCount` is unreachable because `processAndStoreDirectUrl`
catches all its errors internally. -/
def processArticles (trackStore : List String) :
    LoopState → List ArticleInput → LoopState
  | s, [] => s
  | s, a :: rest =>
    let r := processAndStoreDirectUrl trackStore s.newsStore (some s.tracker) a.url
      a.lookupFails a.fetched a.provider
    let t' := r.2.2.getD s.tracker
    let s' := { s with
                newsStore := r.2.1
                tracker := t'
                checked := s.checked ++ [a.url] }
    if t'.shouldStop then { s' with stoppedEarly := true }
    else if r.1.processed then
      processArticles trackStore
        { s' with
          processedCount := s'.processedCount + 1
          allDocs := s'.allDocs ++ [a.url] } rest
    else
      processArticles trackStore
        { s' with skippedCount := s'.skippedCount + 1 } rest

/-- One category of a Joby run: its name and the outcome of enumerating its
articles (navigation, category selection and extraction may throw). -/
structure CategoryInput where
  name : String
  enumeration : Except String (List ArticleInput)

/-- One entry of `categoryResults`. -/
structure CategoryResult where
  category : String
  total : Nat
  processed : Nat
  skipped : Nat
  failed : Nat
deriving DecidableEq

/-- State threaded through the category loop. -/
structure RunState where
  newsStore : List StoredDoc
  tracker : DuplicateTracker
  totalProcessed : Nat
  totalSkipped : Nat
  totalFailed : Nat
  allDocs : List String
  checked : List String
  stoppedEarly : Bool
  categoryResults : List CategoryResult
deriving DecidableEq

/-- The category loop of `processJobySpecificData`: on an enumeration error
the exception propagates (the error value carries the partial state so the
caller can observe what was reached); after a category completes, if the
early-stop flag was set the loop breaks BEFORE pushing the category result
and before adding its counts to the totals; otherwise the counts are
accumulated and the next category is processed. -/
def processCategories (trackStore : List String) :
    RunState → List CategoryInput → Except (String × RunState) RunState
  | s, [] => .ok s
  | s, c :: rest =>
    match c.enumeration with
    | .error e => .error (e, s)
    | .ok articles =>
      let ls := processArticles trackStore
        ⟨s.newsStore, s.tracker, 0, 0, 0, s.allDocs, s.checked, false⟩ articles
      if ls.stoppedEarly then
        .ok { s with
              newsStore := ls.newsStore
              tracker := ls.tracker
              allDocs := ls.allDocs
              checked := ls.checked
              stoppedEarly := true }
      else
        processCategories trackStore
          { s with
            newsStore := ls.newsStore
            tracker := ls.tracker
            totalProcessed := s.totalProcessed + ls.processedCount
            totalSkipped := s.totalSkipped + ls.skippedCount
            totalFailed := s.totalFailed + ls.failedCount
            allDocs := ls.allDocs
            checked := ls.checked
            categoryResults := s.categoryResults ++
              [⟨c.name, articles.length, ls.processedCount, ls.skippedCount,
                ls.failedCount⟩] }
          rest

/-- Decidable equality for `Except` results. -/
instance {ε α : Type} [DecidableEq ε] [DecidableEq α] : DecidableEq (Except ε α)
  | .ok a, .ok b =>
    if h : a = b then .isTrue (congrArg Except.ok h)
    else .isFalse (fun hc => h (Except.ok.inj hc))
  | .ok _, .error _ => .isFalse (fun hc => Except.noConfusion hc)
  | .error _, .ok _ => .isFalse (fun hc => Except.noConfusion hc)
  | .error a, .error b =>
    if h : a = b then .isTrue (congrArg Except.error h)
    else .isFalse (fun hc => h (Except.error.inj hc))

/-- The summary object returned by `processJobySpecificData`. -/
structure JobySummary where
  success : Bool
  totalDocuments : Nat
  processed : Nat
  skipped : Nat
  failed : Nat
  stoppedEarly : Bool
  consecutiveDuplicates : Nat
  categoryResults : List CategoryResult
  documents : List String
deriving DecidableEq

/-- `processJobySpecificData`: initialize the news browser, create the
shared `DuplicateTracker(5, 'news_duplicate')`, run the category loop, call
`cleanupNewsBrowser`, and build the summary. The trailing Bool records
whether the browser resource is still open when the call returns: the
cleanup sits on the success path only, and the catch block re-throws
without cleaning up, so an error propagates with the browser still open. -/
def processJobySpecificData (trackStore : List String) (newsStore : List StoredDoc)
    (cats : List CategoryInput) :
    Except String JobySummary × List StoredDoc × Bool :=
  match processCategories trackStore ⟨newsStore, mkTracker 5, 0, 0, 0, [], [], false, []⟩ cats with
  | .error (e, s) => (.error e, s.newsStore, true)
  | .ok s =>
    (.ok { success := decide (0 < s.totalProcessed),
           totalDocuments := s.allDocs.length,
           processed := s.totalProcessed,
           skipped := s.totalSkipped,
           failed := s.totalFailed,
           stoppedEarly := s.stoppedEarly,
           consecutiveDuplicates := s.tracker.getConsecutiveCount,
           categoryResults := s.categoryResults,
           documents := s.allDocs },
     s.newsStore, false)

/-- The candidate list of the C5 scenario: a candidate with this url is
enumerated, fetches successfully with non-empty content, and embeds
successfully. -/
def scenarioArticle (u : String) : ArticleInput :=
  ⟨u, false, some ⟨u, "body"⟩, fun _ => .success (some [1])⟩

/-- Candidates A..H of the C5 scenario, in enumeration order. -/
def scenarioArticles : List ArticleInput :=
  [scenarioArticle "A", scenarioArticle "B", scenarioArticle "C",
   scenarioArticle "D", scenarioArticle "E", scenarioArticle "F",
   scenarioArticle "G", scenarioArticle "H"]

/-- The tracked table of the C5 scenario: C..G are known duplicates. -/
def scenarioTrackStore : List String := ["C", "D", "E", "F", "G"]

/-- The two categories of a Joby run; the scenario candidates are in the
first, the second enumerates nothing. -/
def scenarioCats : List CategoryInput :=
  [⟨"press-releases", .ok scenarioArticles⟩, ⟨"blog-posts", .ok []⟩]

/-- C5 (counterexample): on the scenario `[A, B, C(dup), D(dup), E(dup),
F(dup), G(dup), H]` with threshold 5, the run report has `processed = 0`
and `skipped = 0` — not `processed = 2, skipped = 5` as claimed — because
the early-stopped category's counts are discarded. -/
theorem c5_counterexample :
    (processJobySpecificData scenarioTrackStore [] scenarioCats).1 =
      .ok ⟨false, 2, 0, 0, 0, true, 5, [], ["A", "B"]⟩
    ∧ ¬ ((0 : Nat) = 2 ∧ (0 : Nat) = 5) := by
  exact ⟨by decide, by decide⟩

/-- C5 (amended): on the scenario the tracker does flag the stop at G (the
5th consecutive duplicate) and H is never checked; internally the category
processed A and B and skipped C–F (the stopping candidate G is not counted
as skipped), but the run report records `processed = 0`, `skipped = 0`,
`stoppedEarly = true`, `consecutiveDuplicates = 5`, `documents = [A, B]`
(`totalDocuments = 2`), empty `categoryResults`, and `success = false`,
because the loop breaks out of the category loop before the early-stopped
category's counts are accumulated. -/
theorem c5_early_stop_scenario :
    processArticles scenarioTrackStore ⟨[], mkTracker 5, 0, 0, 0, [], [], false⟩
        scenarioArticles =
      ⟨[⟨"A", "A", "body", "neutral", [1]⟩, ⟨"B", "B", "body", "neutral", [1]⟩],
       ⟨5, 5⟩, 2, 4, 0, ["A", "B"], ["A", "B", "C", "D", "E", "F", "G"], true⟩
    ∧ ("H" ∉ (["A", "B", "C", "D", "E", "F", "G"] : List String))
    ∧ (processJobySpecificData scenarioTrackStore [] scenarioCats).1 =
        .ok ⟨false, 2, 0, 0, 0, true, 5, [], ["A", "B"]⟩ := by
  exact ⟨by decide, by decide, by decide⟩

/-- A single category whose enumeration throws (e.g. a navigation
timeout). -/
def failingCats : List CategoryInput :=
  [⟨"press-releases", .error "navigation timeout"⟩]

/-- C7 (counterexample): when enumeration throws after the browser was
initialized, `processJobySpecificData` propagates the error with the
browser resource still open — it is not released on this exit path. -/
theorem c7_counterexample :
    (processJobySpecificData [] [] failingCats).1 = .error "navigation timeout"
    ∧ (processJobySpecificData [] [] failingCats).2.2 = true := by
  exact ⟨by decide, by decide⟩

/-- Whether an `Except` value is a success. -/
def exceptIsOk {ε α : Type} : Except ε α → Bool
  | .ok _ => true
  | .error _ => false

/-- C7 (amended): the browser is released before returning exactly on the
success paths (normal completion and early stop); when processing throws,
the error propagates with the browser still open, because
`cleanupNewsBrowser` is called only on the success path and the catch block
re-throws without cleanup. -/
theorem c7_cleanup_paths (trackStore : List String) (newsStore : List StoredDoc)
    (cats : List CategoryInput) :
    (processJobySpecificData trackStore newsStore cats).2.2 =
      !(exceptIsOk (processJobySpecificData trackStore newsStore cats).1) := by
  unfold processJobySpecificData
  cases h : processCategories trackStore ⟨newsStore, mkTracker 5, 0, 0, 0, [], [], false, []⟩ cats with
  | error es => cases es with | mk e s => rfl
  | ok s => rfl

/-! ### Cron entrypoint (`runService` / `runAllServices` in index.ts) -/

/-- One entry of `SERVICE_REGISTRY`: the key, the display name, and the
outcome of invoking the service's processing method. -/
structure ServiceEntry where
  key : String
  name : String
  run : Except String JobySummary

/-- One element of the `results` array built by `runAllServices`. -/
structure ServiceStatus where
  service : String
  success : Bool
  error : Option String
deriving DecidableEq

/-- `runService`: look the service up in the registry, throw on an unknown
key, invoke its processing method; the catch block logs and re-throws, so
a service error propagates to the caller. -/
def runService (registry : List ServiceEntry) (key : String) :
    Except String JobySummary :=
  match registry.find? (fun e => e.key == key) with
  | none => .error ("Unknown service: " ++ key)
  | some e => e.run

/-- The loop of `runAllServices`: call `runService` for each registry
entry; on success push a success record, on a caught error push a failure
record carrying the message, and continue with the remaining services. -/
def runAllServicesAux (registry : List ServiceEntry) (acc : List ServiceStatus) :
    List ServiceEntry → List ServiceStatus
  | [] => acc
  | e :: rest =>
    match runService registry e.key with
    | .ok _ => runAllServicesAux registry (acc ++ [⟨e.name, true, none⟩]) rest
    | .error msg => runAllServicesAux registry (acc ++ [⟨e.name, false, some msg⟩]) rest

/-- `runAllServices`: iterate over the registry, collecting per-service
statuses, and return them together with `allSuccess = results.every(r =>
r.success)` (the boolean the function returns). -/
def runAllServices (registry : List ServiceEntry) : List ServiceStatus × Bool :=
  let results := runAllServicesAux registry [] registry
  (results, results.all (fun r => r.success))

/-- The status record `runAllServices` produces for one registry entry. -/
def serviceStatusOf (e : ServiceEntry) : ServiceStatus :=
  match e.run with
  | .ok _ => ⟨e.name, true, none⟩
  | .error msg => ⟨e.name, false, some msg⟩

theorem find_self (registry : List ServiceEntry)
    (hk : (registry.map ServiceEntry.key).Nodup) (e : ServiceEntry)
    (he : e ∈ registry) :
    registry.find? (fun x => x.key == e.key) = some e := by
  induction registry with
  | nil => cases he
  | cons a rest ih =>
    rcases List.mem_cons.mp he with rfl | hmem
    · simp [List.find?]
    · rw [List.map_cons] at hk
      have hk' := List.nodup_cons.mp hk
      have hne : ¬ (a.key = e.key) := by
        intro hEq
        exact hk'.1 (hEq ▸ List.mem_map_of_mem ServiceEntry.key hmem)
      have hneb : (a.key == e.key) = false := beq_eq_false_iff_ne.mpr hne
      rw [List.find?_cons, hneb]
      exact ih hk'.2 hmem

theorem runAllServicesAux_eq (registry : List ServiceEntry)
    (hk : (registry.map ServiceEntry.key).Nodup) :
    forall entries acc, (forall e, e ∈ entries → e ∈ registry) →
      runAllServicesAux registry acc entries = acc ++ entries.map serviceStatusOf := by
  intro entries
  induction entries with
  | nil => intro acc _; simp [runAllServicesAux]
  | cons e rest ih =>
    intro acc hsub
    have hfind := find_self registry hk e (hsub e (List.mem_cons_self e rest))
    simp only [runAllServicesAux, runService, hfind]
    cases hr : e.run with
    | ok v =>
      show runAllServicesAux registry (acc ++ [⟨e.name, true, none⟩]) rest =
        acc ++ List.map serviceStatusOf (e :: rest)
      rw [ih _ (fun x hx => hsub x (List.mem_cons_of_mem e hx))]
      simp [serviceStatusOf, hr]
    | error m =>
      show runAllServicesAux registry (acc ++ [⟨e.name, false, some m⟩]) rest =
        acc ++ List.map serviceStatusOf (e :: rest)
      rw [ih _ (fun x hx => hsub x (List.mem_cons_of_mem e hx))]
      simp [serviceStatusOf, hr]

theorem runAllServices_results (registry : List ServiceEntry)
    (hk : (registry.map ServiceEntry.key).Nodup) :
    (runAllServices registry).1 = registry.map serviceStatusOf := by
  unfold runAllServices
  exact (runAllServicesAux_eq registry hk registry [] (fun _ h => h)).trans
    (by simp)

/-- C6: a source whose processing throws does not prevent subsequent
sources from being processed: `runAllServices` produces one status record
per registry entry, in registry order, and the record of a failing source
marks it failed with its error message recorded, while every other source
still gets its own record. -/
theorem c6_source_isolation (registry : List ServiceEntry)
    (hk : (registry.map ServiceEntry.key).Nodup) :
    (runAllServices registry).1 = registry.map serviceStatusOf
    ∧ (runAllServices registry).1.length = registry.length
    ∧ (forall e, e ∈ registry → forall msg, e.run = .error msg →
        serviceStatusOf e = ⟨e.name, false, some msg⟩)
    ∧ (runAllServices registry).2 =
        (registry.map serviceStatusOf).all (fun r => r.success) := by
  have h1 := runAllServices_results registry hk
  refine ⟨h1, by rw [h1, List.length_map], ?_, ?_⟩
  · intro e _ msg hmsg
    unfold serviceStatusOf
    rw [hmsg]
  · unfold runAllServices
    rw [runAllServicesAux_eq registry hk registry [] (fun _ h => h)]
    simp

/-- A two-service registry whose first service throws and whose second
succeeds. -/
def demoRegistry : List ServiceEntry :=
  [⟨"joby", "Joby Aviation", .error "browser launch failed"⟩,
   ⟨"archer", "Archer Aviation", .ok ⟨true, 1, 1, 0, 0, false, 0, [], ["u"]⟩⟩]

/-- Witness for C6 on `demoRegistry`: the failing first service is recorded
with its error and the second service is still processed and recorded. -/
theorem c6_source_isolation_witness :
    ((demoRegistry.map ServiceEntry.key).Nodup)
    ∧ (runAllServices demoRegistry).1 =
        [⟨"Joby Aviation", false, some "browser launch failed"⟩,
         ⟨"Archer Aviation", true, none⟩]
    ∧ (runAllServices demoRegistry).2 = false :=
  ⟨by decide,
   ((c6_source_isolation demoRegistry (by decide)).1).trans (by decide),
   ((c6_source_isolation demoRegistry (by decide)).2.2.2).trans (by decide)⟩

/-- C8 (counterexample): running a single source whose processing throws
does NOT return a run report: `runService` re-throws the service's error,
so the run fails fatally rather than folding the error into a report. -/
theorem c8_counterexample :
    runService [⟨"joby", "Joby Aviation", .error "browser launch failed"⟩] "joby" =
      .error "browser launch failed" := rfl

/-- C8 (amended): error folding holds only for multi-source runs:
`runAllServices` catches each source's error and returns the status list
and overall-success flag rather than throwing, but `runService` propagates
a failing service's error (and `processJobySpecificData` itself re-throws
processing errors), so a single-source run can fail fatally. -/
theorem c8_error_propagation (registry : List ServiceEntry)
    (hk : (registry.map ServiceEntry.key).Nodup) (e : ServiceEntry)
    (he : e ∈ registry) :
    (forall msg, e.run = .error msg → runService registry e.key = .error msg)
    ∧ (forall s, e.run = .ok s → runService registry e.key = .ok s)
    ∧ (runAllServices registry).1 = registry.map serviceStatusOf := by
  have hfind := find_self registry hk e he
  refine ⟨fun msg hmsg => ?_, fun s hs => ?_, runAllServices_results registry hk⟩
  · unfold runService
    rw [hfind]
    exact hmsg
  · unfold runService
    rw [hfind]
    exact hs

/-- Witness for C8 (amended) on `demoRegistry`. -/
theorem c8_error_propagation_witness :
    ((demoRegistry.map ServiceEntry.key).Nodup)
    ∧ (⟨"joby", "Joby Aviation", .error "browser launch failed"⟩ : ServiceEntry) ∈ demoRegistry
    ∧ runService demoRegistry "joby" = .error "browser launch failed"
    ∧ (runAllServices demoRegistry).1 = demoRegistry.map serviceStatusOf :=
  ⟨by decide,
   List.mem_cons_self _ _,
   (c8_error_propagation demoRegistry (by decide)
     ⟨"joby", "Joby Aviation", .error "browser launch failed"⟩
     (List.mem_cons_self _ _)).1 "browser launch failed" rfl,
   (c8_error_propagation demoRegistry (by decide)
     ⟨"joby", "Joby Aviation", .error "browser launch failed"⟩
     (List.mem_cons_self _ _)).2.2⟩

end RenderCron
